import Mathlib

/-!
Verification development for the proxe-whatsapp identity-resolution and
response-shaping core.

The definitions below are a shallow embedding of the JavaScript source:

* `normalizePhoneNumber`, `getOrCreateLead`, `getCustomerFullContext`,
  `buildCustomerContext`, `extractInterests`, `extractContextWindow`,
  `determinePhase`, `generateSummary` embed
  `src/services/customerContextService.js`;
* `determineButtonPair` and `parseResponse` embed
  `src/services/claudeService.js`.

Modelling conventions:

* JavaScript values that may be `undefined`/`null` are `Option`s; the
  JS `a || b` operator on strings is `jsOrStr` (empty string is falsy).
* Non-string inputs to the phone normalizer are modelled by the
  `JsInput.nonString` constructor.
* The Supabase store is a `Store` record of three tables plus an id
  counter and a clock.  A `.single()` lookup is `List.find?`; the
  `messages` table is kept ordered by `created_at` descending, mirroring
  the `order('created_at', ascending: false)` index the queries rely on.
* Timestamps are naturals (`Store.now` stands for `new Date()`).
-/

namespace Proxe

/-- Raw input to `normalizePhoneNumber`: either a JS string or any
non-string value (`null`, `undefined`, a number, ...). -/
inductive JsInput where
  | nonString : JsInput
  | jsStr : String → JsInput
deriving DecidableEq

/-- The raw string carried by a `JsInput` (`""` for non-strings); used
where the source passes the original value onward, which only happens
after the empty-key guard has ruled out non-strings. -/
def jsRaw : JsInput → String
  | JsInput.nonString => ""
  | JsInput.jsStr s => s

/-- JS `a || b` for possibly-absent strings: `a` unless `a` is
`undefined`/`null`/`""` (falsy), else `b`. -/
def jsOrStr (a b : Option String) : Option String :=
  match a with
  | some s => if s = "" then b else some s
  | none => b

/-- JS `a || dflt` collapsing to a plain string default. -/
def jsStrOr (a : Option String) (dflt : String) : String :=
  match a with
  | some s => if s = "" then dflt else s
  | none => dflt

/-- JS truthiness of a possibly-absent string (`!!s`). -/
def jsTruthy (a : Option String) : Bool :=
  match a with
  | some s => !(s == "")
  | none => false

/-- JS `toLowerCase`, modelled character-wise (ASCII case mapping). -/
def jsToLower (s : String) : String :=
  String.mk (s.data.map Char.toLower)

/-- JS `trim`: strip leading and trailing whitespace (ASCII members). -/
def jsTrim (s : String) : String :=
  String.mk (((s.data.dropWhile Char.isWhitespace).reverse.dropWhile Char.isWhitespace).reverse)

/-- Scan for `pat` as a contiguous sub-list: `pat` is a prefix here or
an infix of the tail. -/
def listContainsInfix (pat : List Char) : List Char → Bool
  | [] => pat.isEmpty
  | c :: ts => pat.isPrefixOf (c :: ts) || listContainsInfix pat ts

/-- JS `String.prototype.includes`: substring containment. -/
def jsIncludes (s sub : String) : Bool :=
  listContainsInfix sub.data s.data

/--
`normalizePhoneNumber` from `customerContextService.js`:

```js
export function normalizePhoneNumber(phone) {
  if (!phone || typeof phone !== 'string') { return ''; }
  return phone.replace(/\D/g, '');
}
```
-/
def normalizePhoneNumber (phone : JsInput) : String :=
  match phone with
  | JsInput.nonString => ""
  | JsInput.jsStr s => if s = "" then "" else String.mk (s.data.filter Char.isDigit)

/-- The digit subsequence of a string; two raw strings "differ only in
non-digit characters" exactly when their digit subsequences agree. -/
def digitSeq (s : String) : List Char :=
  s.data.filter Char.isDigit

/-! ## Data model (`all_leads`, `whatsapp_sessions`, `messages` tables) -/

/-- The `web` sub-blob of a lead's `unified_context`; fields are the
keys `getCustomerFullContext` reads. -/
structure WebContext where
  conversation_summary : Option String := none
  summary : Option String := none
  last_conversation_summary : Option String := none
  booking_date : Option String := none
  booking_time : Option String := none
  booking_status : Option String := none
  user_inputs : Option (List String) := none
  inputs : Option (List String) := none
  past_interests : Option (List String) := none
  interests : Option (List String) := none
  conversations : Option String := none
  messages : Option String := none
  chat_history : Option String := none
deriving DecidableEq

def emptyWebContext : WebContext := {}

/-- A lead's `unified_context` blob: the keys the core reads. -/
structure UnifiedContext where
  booking_date : Option String := none
  booking_time : Option String := none
  booking_status : Option String := none
  web : Option WebContext := none
  budget : Option String := none
  tags : Option (List String) := none
deriving DecidableEq

def emptyUnifiedContext : UnifiedContext := {}

/-- A row of the `all_leads` table. -/
structure Lead where
  id : Nat
  customer_phone_normalized : String
  phone : String
  customer_name : Option String
  email : Option String
  first_touchpoint : String
  last_touchpoint : String
  brand : String
  last_interaction_at : Nat
  unified_context : UnifiedContext
  created_at : Nat
  updated_at : Nat
deriving DecidableEq

/-- A row of the `whatsapp_sessions` table. -/
structure Session where
  id : Nat
  external_session_id : String
  brand : String
  message_count : Option Nat
  conversation_summary : Option String
  conversation_status : Option String
  customer_name : Option String
  last_message_at : Option Nat
deriving DecidableEq

/-- A row of the `messages` table. -/
structure Message where
  id : Nat
  lead_id : Nat
  channel : String
  sender : String
  content : String
  created_at : Nat
deriving DecidableEq

/-- The backing store.  `messages` is kept in `created_at`-descending
order (the order the `messages` queries request); `nextLeadId` models
the database id sequence and `now` the wall clock. -/
structure Store where
  all_leads : List Lead
  whatsapp_sessions : List Session
  messages : List Message
  nextLeadId : Nat
  now : Nat
deriving DecidableEq

/-- The optional `leadData` argument of `getOrCreateLead`. -/
structure LeadData where
  profileName : Option String := none
  name : Option String := none
  email : Option String := none
  metadata : Option UnifiedContext := none
deriving DecidableEq

def defaultLeadData : LeadData := {}

/-- Error taxonomy of the embedded core: the `Invalid phone number`
throw in `getOrCreateLead` (the spec's `InvalidIdentity`). -/
inductive LeadErr where
  | invalidIdentity : LeadErr
deriving DecidableEq

/-- The `.eq('customer_phone_normalized', key).eq('brand', brand).single()`
lookup on `all_leads`. -/
def findLead (st : Store) (key brand : String) : Option Lead :=
  st.all_leads.find? (fun l => l.customer_phone_normalized == key && l.brand == brand)

/-- The `update({last_touchpoint, last_interaction_at, updated_at})` row
written on the found branch of `getOrCreateLead`. -/
def touchedLead (existing : Lead) (now : Nat) : Lead :=
  { existing with
      last_touchpoint := "whatsapp"
      last_interaction_at := now
      updated_at := now }

/-- The row inserted on the not-found branch of `getOrCreateLead`. -/
def newLeadOf (phone : JsInput) (brand : String) (leadData : LeadData) (st : Store) : Lead :=
  { id := st.nextLeadId
    customer_phone_normalized := normalizePhoneNumber phone
    phone := jsRaw phone
    customer_name := jsOrStr leadData.profileName (jsOrStr leadData.name none)
    email := jsOrStr leadData.email none
    first_touchpoint := "whatsapp"
    last_touchpoint := "whatsapp"
    brand := brand
    last_interaction_at := st.now
    unified_context := leadData.metadata.getD emptyUnifiedContext
    created_at := st.now
    updated_at := st.now }

/--
`getOrCreateLead` from `customerContextService.js`: normalize the
phone, throw on an empty key, look up `(normalized, brand)`; on a hit
touch `last_touchpoint`/`last_interaction_at`/`updated_at` on that row,
otherwise insert a new row storing the raw phone verbatim.  Returns the
result together with the updated store.
-/
def getOrCreateLead (phone : JsInput) (brand : String) (leadData : LeadData)
    (st : Store) : Except LeadErr Lead × Store :=
  let normalizedPhone := normalizePhoneNumber phone
  if normalizedPhone = "" then
    (Except.error LeadErr.invalidIdentity, st)
  else
    match findLead st normalizedPhone brand with
    | some existing =>
        (Except.ok (touchedLead existing st.now),
         { st with all_leads := st.all_leads.map (fun l =>
             if l.id == existing.id then touchedLead existing st.now else l) })
    | none =>
        (Except.ok (newLeadOf phone brand leadData st),
         { st with all_leads := st.all_leads ++ [newLeadOf phone brand leadData st]
                   nextLeadId := st.nextLeadId + 1 })

/-! ## Full context (`getCustomerFullContext`) -/

/-- The derived booking view (`booking_date`/`booking_time`/
`booking_status` plus the `exists` flag, spelled `existsB`). -/
structure Booking where
  booking_date : Option String
  booking_time : Option String
  booking_status : Option String
  existsB : Bool
deriving DecidableEq

/-- Result shape of `getCustomerFullContext`. -/
structure FullContext where
  conversationSummary : Option String
  booking : Option Booking
  userInputs : List String
  webConversations : Option String
deriving DecidableEq

def emptyFullContext : FullContext :=
  { conversationSummary := none, booking := none, userInputs := [], webConversations := none }

/--
`getCustomerFullContext` from `customerContextService.js`: re-reads the
lead by normalized phone and brand and projects the `unified_context`
blob into summary, booking view, user inputs and raw web conversations
(the `PGRST116` no-row error maps to the empty context).
-/
def getCustomerFullContext (phone : JsInput) (brand : String) (st : Store) : FullContext :=
  let normalizedPhone := normalizePhoneNumber phone
  match findLead st normalizedPhone brand with
  | none => emptyFullContext
  | some lead =>
    let unifiedContext := lead.unified_context
    let webContext := unifiedContext.web.getD emptyWebContext
    let conversationSummary :=
      jsOrStr webContext.conversation_summary
        (jsOrStr webContext.summary (jsOrStr webContext.last_conversation_summary none))
    let booking : Booking :=
      { booking_date := jsOrStr unifiedContext.booking_date (jsOrStr webContext.booking_date none)
        booking_time := jsOrStr unifiedContext.booking_time (jsOrStr webContext.booking_time none)
        booking_status := jsOrStr unifiedContext.booking_status (jsOrStr webContext.booking_status none)
        existsB := jsTruthy unifiedContext.booking_date || jsTruthy webContext.booking_date ||
                   jsTruthy unifiedContext.booking_time || jsTruthy webContext.booking_time }
    let userInputs :=
      (webContext.user_inputs <|> webContext.inputs <|>
       webContext.past_interests <|> webContext.interests).getD []
    let webConversations :=
      webContext.conversations <|> webContext.messages <|> webContext.chat_history
    { conversationSummary := conversationSummary
      booking := if booking.existsB then some booking else none
      userInputs := userInputs
      webConversations := webConversations }

/-! ## Interests, phase, summary (`customerContextService.js`) -/

/-- JS `text.indexOf(sub)` restricted to the found case: index of the
first occurrence of `sub` in `text`, `none` when absent. -/
def strIndexOfAux (sub : List Char) : List Char → Nat → Option Nat
  | [], i => if sub = [] then some i else none
  | c :: cs, i => if sub.isPrefixOf (c :: cs) then some i else strIndexOfAux sub cs (i + 1)

def strIndexOf (text sub : String) : Option Nat :=
  strIndexOfAux sub.data text.data 0

/-- `extractContext` from `customerContextService.js`: the trimmed
±20-character window around the first occurrence of `keyword` in
`text`; only invoked when `text` contains `keyword`. -/
def extractContextWindow (text keyword : String) : String :=
  match strIndexOf text keyword with
  | none => ""
  | some index =>
    let start := index - 20
    let stop := min text.data.length (index + keyword.data.length + 20)
    jsTrim (String.mk ((text.data.drop start).take (stop - start)))

def interestKeywords : List String :=
  ["property", "properties", "sqft", "budget", "location", "area", "rent"]

/-- Inner keyword loop of `extractInterests`: push the window for each
keyword the lower-cased content contains, skipping falsy and duplicate
windows (`interests` is the accumulator the JS mutates). -/
def scanKeywords (content : String) (acc : List String) : List String → List String
  | [] => acc
  | keyword :: rest =>
    if jsIncludes content keyword then
      let ctx := extractContextWindow content keyword
      if ctx ≠ "" ∧ ctx ∉ acc then scanKeywords content (acc ++ [ctx]) rest
      else scanKeywords content acc rest
    else scanKeywords content acc rest

def extractInterestsStep (acc : List String) (content : String) : List String :=
  scanKeywords content acc interestKeywords

/-- Outer message loop of `extractInterests`. -/
def scanMessages (acc : List String) : List Message → List String
  | [] => acc
  | msg :: rest => scanMessages (extractInterestsStep acc (jsToLower msg.content)) rest

/-- `extractInterests` from `customerContextService.js`: scan every
message's lower-cased content for the keyword set, collect deduplicated
windows, and cap the result with `slice(0, 5)`. -/
def extractInterests (messages : List Message) : List String :=
  (scanMessages [] messages).take 5

/-- `determinePhase` from `customerContextService.js`. -/
def determinePhase (messages : List Message) : String :=
  let messageCount := messages.length
  if messageCount = 0 then "discovery"
  else if messageCount < 3 then "discovery"
  else if messageCount < 8 then "evaluation"
  else "closing"

/-- `generateSummary` from `customerContextService.js`: `role: content`
pairs over the five most recent messages (re-ordered oldest first),
truncated to 500 characters with an ellipsis. -/
def generateSummary (messages : List Message) : String :=
  if messages.length = 0 then "New customer, no previous conversation."
  else
    let recentMessages := (messages.take 5).reverse
    let summary := String.intercalate " | " (recentMessages.map (fun msg => msg.sender ++ ": " ++ msg.content))
    if summary.length > 500 then String.mk (summary.data.take 500) ++ "..." else summary

/-! ## Context assembly (`buildCustomerContext`) -/

/-- JS filter `(value, index, self) => self.indexOf(value) === index &&
value && value.trim()` over a string array: keep the first occurrence
of each value, dropping empty and whitespace-only strings. -/
def jsUniqueTruthy (l : List String) : List String :=
  ((l.enum.filter (fun p => l.indexOf p.2 == p.1 && !(p.2 == "") && !(jsTrim p.2 == ""))).map Prod.snd)

/-- `session?.conversation_summary || generateSummary(messages || [])`. -/
def whatsappSummaryOf (session : Option Session) (messages : List Message) : String :=
  jsStrOr (session.bind (fun s => s.conversation_summary)) (generateSummary messages)

/-- `fullContext.conversationSummary || ''`. -/
def webSummaryOf (fullContext : FullContext) : String :=
  jsStrOr fullContext.conversationSummary ""

/-- The `combinedSummary` expression of `buildCustomerContext`. -/
def combinedSummaryOf (fullContext : FullContext) (session : Option Session)
    (messages : List Message) : String :=
  let webSummary := webSummaryOf fullContext
  let whatsappSummary := whatsappSummaryOf session messages
  if webSummary = "" then whatsappSummary
  else if whatsappSummary ≠ "New customer, no previous conversation." then
    "Web: " ++ webSummary ++ "\nWhatsApp: " ++ whatsappSummary
  else "Web: " ++ webSummary

/-- The `allInterests` expression of `buildCustomerContext`: web user
inputs first, then WhatsApp interests, deduplicated/truthy-filtered and
capped with `slice(0, 10)`. -/
def allInterestsOf (fullContext : FullContext) (previousInterests : List String) : List String :=
  (jsUniqueTruthy (fullContext.userInputs ++ previousInterests)).take 10

/-- `sessionData` sub-object of the built context. -/
structure SessionData where
  sessionId : Nat
  conversationStatus : String
  lastMessageAt : Option Nat
deriving DecidableEq

/-- One entry of `lastMessages`. -/
structure ChatTurn where
  role : String
  content : String
  timestamp : Nat
deriving DecidableEq

/-- The Context value `buildCustomerContext` returns. -/
structure Context where
  customerId : Nat
  leadId : Nat
  name : Option String
  phone : String
  brand : String
  firstTouchpoint : String
  lastTouchpoint : String
  firstContact : Nat
  lastContact : Nat
  conversationCount : Nat
  conversationPhase : String
  previousInterests : List String
  budget : Option String
  conversationSummary : String
  lastMessages : List ChatTurn
  tags : List String
  metadata : UnifiedContext
  webConversationSummary : Option String
  booking : Option Booking
  webUserInputs : List String
  webConversations : Option String
  sessionData : Option SessionData
deriving DecidableEq

/-- The `whatsapp_sessions` lookup of `buildCustomerContext`
(`external_session_id` + `brand`, `.single()`). -/
def sessionQuery (st : Store) (sessionId brand : String) : Option Session :=
  st.whatsapp_sessions.find? (fun s => s.external_session_id == sessionId && s.brand == brand)

/-- The `messages` query of `buildCustomerContext`: rows for this lead
on the whatsapp channel, newest first (the store's maintained order),
limited to 20. -/
def leadMessagesQuery (st : Store) (leadId : Nat) : List Message :=
  (st.messages.filter (fun m => m.lead_id == leadId && m.channel == "whatsapp")).take 20

/-- Steps 5-9 of `buildCustomerContext`: assemble the enriched context
object from the lead row, the full context, the optional session and
the fetched messages. -/
def assembleContext (lead : Lead) (fullContext : FullContext)
    (session : Option Session) (messages : List Message) : Context :=
  { customerId := lead.id
    leadId := lead.id
    name := jsOrStr lead.customer_name (session.bind (fun s => s.customer_name))
    phone := lead.phone
    brand := lead.brand
    firstTouchpoint := lead.first_touchpoint
    lastTouchpoint := lead.last_touchpoint
    firstContact := lead.created_at
    lastContact := lead.last_interaction_at
    conversationCount := (session.bind (fun s => s.message_count)).getD 0
    conversationPhase := determinePhase messages
    previousInterests := allInterestsOf fullContext (extractInterests messages)
    budget := jsOrStr lead.unified_context.budget none
    conversationSummary := combinedSummaryOf fullContext session messages
    lastMessages := ((messages.take 10).reverse).map
      (fun msg =>
        { role := if msg.sender = "customer" then "user" else "assistant"
          content := msg.content
          timestamp := msg.created_at })
    tags := lead.unified_context.tags.getD []
    metadata := lead.unified_context
    webConversationSummary := fullContext.conversationSummary
    booking := fullContext.booking
    webUserInputs := fullContext.userInputs
    webConversations := fullContext.webConversations
    sessionData := session.map
      (fun s =>
        { sessionId := s.id
          conversationStatus := jsStrOr s.conversation_status "active"
          lastMessageAt := s.last_message_at }) }

/--
`buildCustomerContext` from `customerContextService.js`: resolve the
lead with `getOrCreateLead` (which may write), then read the full
context, the session and the recent messages and assemble the Context.
-/
def buildCustomerContext (sessionId : JsInput) (brand : String) (st : Store) :
    Except LeadErr Context × Store :=
  match getOrCreateLead sessionId brand defaultLeadData st with
  | (Except.error e, st1) => (Except.error e, st1)
  | (Except.ok lead, st1) =>
      let fullContext := getCustomerFullContext sessionId brand st1
      let session := sessionQuery st1 (jsRaw sessionId) brand
      let messages := leadMessagesQuery st1 lead.id
      (Except.ok (assembleContext lead fullContext session messages), st1)

/-! ## Response shaping (`claudeService.js`) -/

/-- `customerContext?.booking?.exists` (falsy when the context or its
booking view is absent). -/
def ctxBookingExists (customerContext : Option Context) : Bool :=
  match customerContext with
  | some ctx =>
      match ctx.booking with
      | some bk => bk.existsB
      | none => false
  | none => false

def howFeatureKeywords : List String :=
  ["how", "feature", "what can", "what does", "how does", "how it works", "capability", "can it"]

def closingPhrases : List String :=
  ["thanks", "thank you", "ok", "okay", "bye", "goodbye", "see you", "ttyl"]

/-- The regex `/^(thanks|thank you|ok|okay|bye|goodbye|see you|ttyl)[\s!.]*$/i`
applied to the trimmed lower-cased message: one of the closing phrases
followed only by whitespace, `!` or `.` (`\s` modelled by its ASCII
members). -/
def closingPhraseTest (lowerMessage : String) : Bool :=
  let t := (jsTrim lowerMessage).data
  closingPhrases.any (fun p =>
    p.data.isPrefixOf t &&
    (t.drop p.data.length).all (fun c => c == ' ' || c == '\t' || c == '\n' || c == '\r' || c == '!' || c == '.'))

/--
`determineButtonPair` from `claudeService.js`: the ordered,
first-match-wins single-button policy over the lower-cased user message
and reply.
-/
def determineButtonPair (userMessage aiResponse : String) (messageCount : Nat)
    (isNewUser : Bool) (customerContext : Option Context) : List String :=
  let lowerMessage := jsToLower userMessage
  let lowerResponse := jsToLower aiResponse
  let hasBooking := ctxBookingExists customerContext ||
                    jsIncludes lowerResponse "booking confirmed" ||
                    jsIncludes lowerResponse "demo is confirmed" ||
                    jsIncludes lowerResponse "already have a demo"
  if hasBooking && (jsIncludes lowerMessage "reschedule" || jsIncludes lowerMessage "change time" ||
      jsIncludes lowerMessage "different time") then
    ["Confirm Reschedule"]
  else if hasBooking && (jsIncludes lowerMessage "cancel" || jsIncludes lowerMessage "cancel booking" ||
      jsIncludes lowerMessage "cancel demo") then
    ["Confirm Cancel"]
  else if hasBooking then
    ["Ask a Question"]
  else if jsIncludes lowerResponse "$99" || jsIncludes lowerResponse "$199" ||
      jsIncludes lowerResponse "99/month" || jsIncludes lowerResponse "199/month" ||
      ((jsIncludes lowerMessage "price" || jsIncludes lowerMessage "pricing" ||
        jsIncludes lowerMessage "cost") &&
       (jsIncludes lowerResponse "$" || jsIncludes lowerResponse "month")) then
    ["Book Demo"]
  else if howFeatureKeywords.any (fun keyword =>
      jsIncludes lowerMessage keyword || jsIncludes lowerResponse keyword) then
    ["See Demo"]
  else if closingPhraseTest lowerMessage then
    ["Book Demo"]
  else if isNewUser || messageCount == 0 then
    ["Learn More"]
  else if 3 ≤ messageCount then
    ["Book Demo"]
  else
    ["Learn More"]

/-- ASCII members of the regex class `\s`. -/
def isJsWs (c : Char) : Bool :=
  c == ' ' || c == '\t' || c == '\n' || c == '\r'

/-- One attempted match of `/→\s*BUTTON:\s*(.+)/gi` at the head of the
character list: the arrow, whitespace, a case-insensitive `BUTTON:`,
whitespace, then a non-empty run of non-newline characters (`\s*` is
modelled greedily, without backtracking into an all-whitespace body).
Returns the matched substring and the remainder. -/
def tryButtonMatch (cs : List Char) : Option (List Char × List Char) :=
  match cs with
  | [] => none
  | c :: rest =>
    if c = '→' then
      let ws1 := rest.takeWhile isJsWs
      let r1 := rest.drop ws1.length
      let kw := r1.take 7
      if kw.length = 7 ∧ kw.map Char.toLower = "button:".data then
        let r2 := r1.drop 7
        let ws2 := r2.takeWhile isJsWs
        let r3 := r2.drop ws2.length
        let body := r3.takeWhile (fun ch => ch ≠ '\n')
        if body = [] then none
        else some (c :: (ws1 ++ kw ++ ws2 ++ body), r3.drop body.length)
      else none
    else none

/-- All (non-overlapping, left-to-right) matches of the button-marker
regex; the fuel argument is the remaining length, consumed at least one
character per step. -/
def collectButtonMatchesAux : Nat → List Char → List String
  | 0, _ => []
  | _ + 1, [] => []
  | n + 1, c :: cs =>
    match tryButtonMatch (c :: cs) with
    | some (m, rest) => String.mk m :: collectButtonMatchesAux n rest
    | none => collectButtonMatchesAux n cs

def collectButtonMatches (s : String) : List String :=
  collectButtonMatchesAux s.data.length s.data

/-- JS `text.replace(pat, '')` with a plain-string pattern: delete the
first occurrence of `pat`. -/
def replaceFirstAux (pat : List Char) : List Char → List Char
  | [] => []
  | c :: ts => if pat ≠ [] ∧ pat.isPrefixOf (c :: ts) then (c :: ts).drop pat.length else c :: replaceFirstAux pat ts

def replaceFirst (t pat : String) : String :=
  String.mk (replaceFirstAux pat.data t.data)

def urgentKeywords : List String := ["urgent", "asap", "immediately", "emergency"]

def highKeywords : List String := ["important", "soon", "today", "quickly"]

/-- Result shape of `parseResponse`. -/
structure ParsedResponse where
  text : String
  responseType : String
  buttons : List String
  urgency : String
  nextAction : String
deriving DecidableEq

/--
`parseResponse` from `claudeService.js`: strip the model's button
suggestions from the text, select the single button with
`determineButtonPair`, and classify urgency over the cleaned text.
-/
def parseResponse (rawResponse userMessage : String) (messageCount : Nat)
    (isNewUser : Bool) (customerContext : Option Context) : ParsedResponse :=
  let text := (collectButtonMatches rawResponse).foldl
    (fun t m => jsTrim (replaceFirst t m)) rawResponse
  let buttons := determineButtonPair userMessage rawResponse messageCount isNewUser customerContext
  let responseType := if 0 < buttons.length then "text_with_buttons" else "text_only"
  let lowerText := jsToLower text
  let urgency :=
    if urgentKeywords.any (fun kw => jsIncludes lowerText kw) then "urgent"
    else if highKeywords.any (fun kw => jsIncludes lowerText kw) then "high"
    else "normal"
  { text := jsTrim text
    responseType := responseType
    buttons := buttons
    urgency := urgency
    nextAction := if 0 < buttons.length then "wait_for_response" else "continue_conversation" }

/-- The history message shape `generateResponse` receives. -/
structure HistMsg where
  role : String
  content : String
deriving DecidableEq

/-- The `messageCount` computed in `generateResponse`: the number of
assistant turns already in the conversation history. -/
def assistantTurnCount (conversationHistory : List HistMsg) : Nat :=
  (conversationHistory.filter (fun msg => msg.role == "assistant")).length


/-- The storage-boundary uniqueness invariant on `(normalizedPhone, brand)`
(the constraint `.single()` relies on). -/
def LeadKeyBrandUnique (leads : List Lead) : Prop :=
  ∀ a ∈ leads, ∀ b ∈ leads,
    a.customer_phone_normalized = b.customer_phone_normalized → a.brand = b.brand → a = b

/-- Primary-key uniqueness of lead ids. -/
def LeadIdUnique (leads : List Lead) : Prop :=
  ∀ a ∈ leads, ∀ b ∈ leads, a.id = b.id → a = b

/-! ## Spec-side comparison definitions -/

/-- Modelled from the spec: `PhaseClassifier.classify` (§4.4) — `count < 3`
is discovery, `3 <= count < 8` evaluation, `count >= 8` closing. -/
def specClassify (count : Nat) : String :=
  if count < 3 then "discovery"
  else if count < 8 then "evaluation"
  else "closing"

/-- Modelled from the spec: "deduplicated by exact string equality
preserving first occurrence" (§4.5 step 6) — no truthiness filter;
`seen` accumulates the values already emitted. -/
def specDedupFirst (seen : List String) : List String → List String
  | [] => []
  | v :: rest =>
    if v ∈ seen then specDedupFirst seen rest
    else v :: specDedupFirst (v :: seen) rest

/-- First-occurrence deduplication that also drops empty and
whitespace-only strings, with an accumulator of already-seen values:
the behaviour of the JS `filter` in `buildCustomerContext`
(`jsUniqueTruthy`), in recursive form. -/
def dedupNonblankAux (seen : List String) : List String → List String
  | [] => []
  | v :: rest =>
    if v ∈ seen then dedupNonblankAux seen rest
    else if jsTrim v = "" then dedupNonblankAux (v :: seen) rest
    else v :: dedupNonblankAux (v :: seen) rest

/-! ## Concrete fixtures for witnesses and counterexamples -/

def emptyStore : Store :=
  { all_leads := [], whatsapp_sessions := [], messages := [], nextLeadId := 1, now := 100 }

/-- A lead for the phone key `919876543210` under brand `proxe`. -/
def leadA : Lead :=
  { id := 7
    customer_phone_normalized := "919876543210"
    phone := "+91 9876543210"
    customer_name := some "Asha"
    email := none
    first_touchpoint := "web"
    last_touchpoint := "web"
    brand := "proxe"
    last_interaction_at := 50
    unified_context := {}
    created_at := 10
    updated_at := 50 }

/-- Store for the C4 counterexample: the session reports
`message_count = 8` while no messages exist on the channel. -/
def storeC4 : Store :=
  { all_leads := [leadA]
    whatsapp_sessions :=
      [{ id := 3
         external_session_id := "919876543210"
         brand := "proxe"
         message_count := some 8
         conversation_summary := none
         conversation_status := none
         customer_name := none
         last_message_at := none }]
    messages := []
    nextLeadId := 8
    now := 100 }

/-- Store for the C6 counterexample: two keyword-bearing messages,
newest first (`created_at` 2 before 1). -/
def messageBudget : Message :=
  { id := 12, lead_id := 7, channel := "whatsapp", sender := "customer"
    content := "My budget is flexible", created_at := 2 }

def messageLocation : Message :=
  { id := 11, lead_id := 7, channel := "whatsapp", sender := "customer"
    content := "Location in Pune", created_at := 1 }

def storeC6 : Store :=
  { all_leads := [leadA]
    whatsapp_sessions := []
    messages := [messageBudget, messageLocation]
    nextLeadId := 8
    now := 100 }

/-- Store for the C7 counterexample: the web blob carries an empty
string among its user inputs. -/
def storeC7 : Store :=
  { all_leads :=
      [{ leadA with
           unified_context :=
             { web := some { user_inputs := some ["", "pune flats"] } } }]
    whatsapp_sessions := []
    messages := []
    nextLeadId := 8
    now := 100 }

/-- Full context for the C7 witness: a web summary is present. -/
def fullContextW : FullContext :=
  { conversationSummary := some "saw pricing page"
    booking := none
    userInputs := ["pricing"]
    webConversations := none }

/-- One WhatsApp message for the C7 witness. -/
def messageW : Message :=
  { id := 21, lead_id := 7, channel := "whatsapp", sender := "customer"
    content := "hello", created_at := 3 }

/-- A context whose booking view exists (for witnesses). -/
def contextWithBooking : Context :=
  { customerId := 7
    leadId := 7
    name := some "Asha"
    phone := "+91 9876543210"
    brand := "proxe"
    firstTouchpoint := "web"
    lastTouchpoint := "whatsapp"
    firstContact := 10
    lastContact := 50
    conversationCount := 2
    conversationPhase := "discovery"
    previousInterests := []
    budget := none
    conversationSummary := "s"
    lastMessages := []
    tags := []
    metadata := {}
    webConversationSummary := none
    booking := some
      { booking_date := some "2025-01-01"
        booking_time := some "10:00"
        booking_status := some "confirmed"
        existsB := true }
    webUserInputs := []
    webConversations := none
    sessionData := none }

/-! ## Helper lemmas -/

theorem normalizePhoneNumber_eq_filter (s : String) :
    normalizePhoneNumber (JsInput.jsStr s) = String.mk (digitSeq s) := by
  show (if s = "" then "" else String.mk (s.data.filter Char.isDigit)) = _
  by_cases h : s = ""
  · subst h
    rfl
  · simp [h, digitSeq]

theorem determineButtonPair_singleton (userMessage aiResponse : String) (messageCount : Nat)
    (isNewUser : Bool) (customerContext : Option Context) :
    ∃ b, determineButtonPair userMessage aiResponse messageCount isNewUser customerContext = [b] := by
  simp only [determineButtonPair]
  repeat' split
  all_goals exact ⟨_, rfl⟩

theorem parseResponse_buttons (rawResponse userMessage : String) (messageCount : Nat)
    (isNewUser : Bool) (customerContext : Option Context) :
    (parseResponse rawResponse userMessage messageCount isNewUser customerContext).buttons =
      determineButtonPair userMessage rawResponse messageCount isNewUser customerContext := rfl

/-! ## Claim theorems -/

/-- C1: for every input (raw reply text, user message, history turn
count, new-user flag, customer context), the canonical ResponseShaper
(`parseResponse`, whose buttons come from the first-match-wins policy
`determineButtonPair`) returns a buttons list of length exactly 1. -/
theorem C1_exactly_one_button (rawResponse userMessage : String) (messageCount : Nat)
    (isNewUser : Bool) (customerContext : Option Context) :
    (parseResponse rawResponse userMessage messageCount isNewUser customerContext).buttons.length = 1 := by
  rw [parseResponse_buttons]
  obtain ⟨b, hb⟩ :=
    determineButtonPair_singleton userMessage rawResponse messageCount isNewUser customerContext
  rw [hb]
  rfl

/-- C8: `normalizePhoneNumber` is idempotent; any two raw strings with
the same digit subsequence (i.e. differing only in non-digit
characters) normalize identically; and
`normalize("+91 9876543210") == normalize("919876543210") == "919876543210"`. -/
theorem C8_normalize_idempotent_and_format_invariant :
    (∀ s : String,
      normalizePhoneNumber (JsInput.jsStr (normalizePhoneNumber (JsInput.jsStr s))) =
        normalizePhoneNumber (JsInput.jsStr s)) ∧
    (∀ s t : String, digitSeq s = digitSeq t →
      normalizePhoneNumber (JsInput.jsStr s) = normalizePhoneNumber (JsInput.jsStr t)) ∧
    normalizePhoneNumber (JsInput.jsStr "+91 9876543210") = "919876543210" ∧
    normalizePhoneNumber (JsInput.jsStr "919876543210") = "919876543210" := by
  refine ⟨?_, ?_, by decide, by decide⟩
  · intro s
    rw [normalizePhoneNumber_eq_filter, normalizePhoneNumber_eq_filter]
    congr 1
    show (String.mk (digitSeq s)).data.filter Char.isDigit = digitSeq s
    exact List.filter_eq_self.mpr (fun a ha => (List.mem_filter.mp ha).2)
  · intro s t h
    rw [normalizePhoneNumber_eq_filter, normalizePhoneNumber_eq_filter, h]

theorem C8_witness :
    digitSeq "+91 9876543210" = digitSeq "91-98 765.432(10)" ∧
    normalizePhoneNumber (JsInput.jsStr "+91 9876543210") =
      normalizePhoneNumber (JsInput.jsStr "91-98 765.432(10)") :=
  ⟨by decide,
   C8_normalize_idempotent_and_format_invariant.2.1 "+91 9876543210" "91-98 765.432(10)" (by decide)⟩

/-- C9: `getOrCreateLead` fails with `InvalidIdentity` exactly when the
normalized key is empty; `normalize` yields `""` for empty or
non-string input; on that error the store is untouched; and a raw
phone containing at least one digit never raises `InvalidIdentity`. -/
theorem C9_invalid_identity_iff_empty_key :
    (∀ (phone : JsInput) (brand : String) (leadData : LeadData) (st : Store),
      (getOrCreateLead phone brand leadData st).1 = Except.error LeadErr.invalidIdentity ↔
        normalizePhoneNumber phone = "") ∧
    normalizePhoneNumber JsInput.nonString = "" ∧
    normalizePhoneNumber (JsInput.jsStr "") = "" ∧
    (∀ (phone : JsInput) (brand : String) (leadData : LeadData) (st : Store),
      normalizePhoneNumber phone = "" → (getOrCreateLead phone brand leadData st).2 = st) ∧
    (∀ (s : String) (brand : String) (leadData : LeadData) (st : Store),
      (∃ c ∈ s.data, c.isDigit) →
        (getOrCreateLead (JsInput.jsStr s) brand leadData st).1 ≠
          Except.error LeadErr.invalidIdentity) := by
  have herr : ∀ (phone : JsInput) (brand : String) (leadData : LeadData) (st : Store),
      (getOrCreateLead phone brand leadData st).1 = Except.error LeadErr.invalidIdentity ↔
        normalizePhoneNumber phone = "" := by
    intro phone brand leadData st
    simp only [getOrCreateLead]
    by_cases h : normalizePhoneNumber phone = ""
    · simp [h]
    · cases hf : findLead st (normalizePhoneNumber phone) brand <;> simp [h, hf]
  refine ⟨herr, rfl, rfl, ?_, ?_⟩
  · intro phone brand leadData st h
    simp [getOrCreateLead, h]
  · intro s brand leadData st hdig
    rw [Ne, herr]
    intro hnorm
    rw [normalizePhoneNumber_eq_filter] at hnorm
    obtain ⟨c, hc, hcd⟩ := hdig
    have : c ∈ digitSeq s := List.mem_filter.mpr ⟨hc, hcd⟩
    rw [show digitSeq s = ([] : List Char) from congrArg String.data hnorm] at this
    exact absurd this (List.not_mem_nil c)

theorem C9_witness :
    ((∃ c ∈ "91a".data, c.isDigit) ∧
      (getOrCreateLead (JsInput.jsStr "91a") "proxe" defaultLeadData emptyStore).1 ≠
        Except.error LeadErr.invalidIdentity) ∧
    (normalizePhoneNumber (JsInput.jsStr "+- ()") = "" ∧
      (getOrCreateLead (JsInput.jsStr "+- ()") "proxe" defaultLeadData emptyStore).2 = emptyStore) :=
  ⟨⟨by decide,
    C9_invalid_identity_iff_empty_key.2.2.2.2 "91a" "proxe" defaultLeadData emptyStore (by decide)⟩,
   ⟨by decide,
    C9_invalid_identity_iff_empty_key.2.2.2.1 (JsInput.jsStr "+- ()") "proxe" defaultLeadData
      emptyStore (by decide)⟩⟩

theorem listContainsInfix_iff (pat l : List Char) :
    listContainsInfix pat l = true ↔ pat <:+: l := by
  induction l with
  | nil =>
    simp [listContainsInfix, List.isEmpty_iff, List.infix_nil]
  | cons c ts ih =>
    simp [listContainsInfix, List.isPrefixOf_iff_prefix, ih, List.infix_cons_iff]

theorem jsIncludes_eq_true_iff (s sub : String) :
    jsIncludes s sub = true ↔ sub.data <:+: s.data :=
  listContainsInfix_iff sub.data s.data

theorem jsIncludes_mono_false {s p q : String}
    (hpq : p.data <:+: q.data) (h : jsIncludes s p = false) : jsIncludes s q = false := by
  rw [← Bool.not_eq_true] at h ⊢
  rw [jsIncludes_eq_true_iff] at h ⊢
  exact fun hq => h (hpq.trans hq)

/-- C10: when the generated reply contains `booking confirmed`,
`demo is confirmed` or `already have a demo` (case-insensitively), the
booking rules apply even with a null/absent `context.booking`: with no
reschedule or cancel intent in the user message, the shaped buttons are
exactly `["Ask a Question"]`. -/
theorem C10_reply_phrases_force_ask_a_question
    (rawResponse userMessage : String) (messageCount : Nat) (isNewUser : Bool)
    (customerContext : Option Context)
    (hphrase : jsIncludes (jsToLower rawResponse) "booking confirmed" = true ∨
               jsIncludes (jsToLower rawResponse) "demo is confirmed" = true ∨
               jsIncludes (jsToLower rawResponse) "already have a demo" = true)
    (hres1 : jsIncludes (jsToLower userMessage) "reschedule" = false)
    (hres2 : jsIncludes (jsToLower userMessage) "change time" = false)
    (hres3 : jsIncludes (jsToLower userMessage) "different time" = false)
    (hcan : jsIncludes (jsToLower userMessage) "cancel" = false) :
    (parseResponse rawResponse userMessage messageCount isNewUser customerContext).buttons =
      ["Ask a Question"] := by
  rw [parseResponse_buttons]
  have hcan2 : jsIncludes (jsToLower userMessage) "cancel booking" = false :=
    jsIncludes_mono_false ⟨[], " booking".data, by decide⟩ hcan
  have hcan3 : jsIncludes (jsToLower userMessage) "cancel demo" = false :=
    jsIncludes_mono_false ⟨[], " demo".data, by decide⟩ hcan
  simp only [determineButtonPair]
  rcases hphrase with h | h | h <;>
    simp [h, hres1, hres2, hres3, hcan, hcan2, hcan3]

theorem C10_witness :
    jsIncludes (jsToLower "Your Booking Confirmed for tomorrow at 10") "booking confirmed" = true ∧
    (parseResponse "Your Booking Confirmed for tomorrow at 10" "hello there" 2 false none).buttons =
      ["Ask a Question"] :=
  ⟨by decide,
   C10_reply_phrases_force_ask_a_question "Your Booking Confirmed for tomorrow at 10" "hello there"
     2 false none (Or.inl (by decide)) (by decide) (by decide) (by decide) (by decide)⟩

/-- C5 counterexample: with booking=null, isNewUser=true,
historyTurnCount=0 but the user message "how", the shaped buttons are
`["See Demo"]`, not `["Learn More"]` — the second half of the claim
does not hold for arbitrary message/reply fields. -/
theorem C5_counterexample :
    (parseResponse "" "how" 0 true none).buttons = ["See Demo"] ∧
    (["See Demo"] : List String) ≠ ["Learn More"] := by
  refine ⟨?_, by decide⟩
  decide

/-- C5 (amended): with booking-exists=true and message
"please reschedule" the buttons are exactly `["Confirm Reschedule"]`
regardless of every other field; and with booking=null, isNewUser=true,
historyTurnCount=0 the buttons are exactly `["Learn More"]` provided no
earlier rule fires (the reply carries no booking-confirmation phrase
and no price marker, the message mentions no price word, no
how/feature/capability keyword occurs in message or reply, and the
message is not a closing phrase). -/
theorem C5_button_policy_determinism :
    (∀ (rawResponse : String) (messageCount : Nat) (isNewUser : Bool)
        (customerContext : Option Context),
      ctxBookingExists customerContext = true →
      (parseResponse rawResponse "please reschedule" messageCount isNewUser
          customerContext).buttons = ["Confirm Reschedule"]) ∧
    (∀ (rawResponse userMessage : String) (customerContext : Option Context),
      ctxBookingExists customerContext = false →
      jsIncludes (jsToLower rawResponse) "booking confirmed" = false →
      jsIncludes (jsToLower rawResponse) "demo is confirmed" = false →
      jsIncludes (jsToLower rawResponse) "already have a demo" = false →
      jsIncludes (jsToLower rawResponse) "$99" = false →
      jsIncludes (jsToLower rawResponse) "$199" = false →
      jsIncludes (jsToLower rawResponse) "99/month" = false →
      jsIncludes (jsToLower rawResponse) "199/month" = false →
      jsIncludes (jsToLower userMessage) "price" = false →
      jsIncludes (jsToLower userMessage) "pricing" = false →
      jsIncludes (jsToLower userMessage) "cost" = false →
      howFeatureKeywords.any (fun keyword =>
        jsIncludes (jsToLower userMessage) keyword ||
        jsIncludes (jsToLower rawResponse) keyword) = false →
      closingPhraseTest (jsToLower userMessage) = false →
      (parseResponse rawResponse userMessage 0 true customerContext).buttons = ["Learn More"]) := by
  constructor
  · intro rawResponse messageCount isNewUser customerContext hbook
    rw [parseResponse_buttons]
    have hm : jsIncludes (jsToLower "please reschedule") "reschedule" = true := by decide
    simp only [determineButtonPair]
    simp [hbook, hm]
  · intro rawResponse userMessage customerContext hbook h1 h2 h3 h4 h5 h6 h7 h8 h9 h10 h11 h12
    rw [parseResponse_buttons]
    simp only [determineButtonPair]
    simp [hbook, h1, h2, h3, h4, h5, h6, h7, h8, h9, h10, h11, h12]

theorem C5_witness :
    ctxBookingExists (some contextWithBooking) = true ∧
    (parseResponse "See you then!" "please reschedule" 4 false
        (some contextWithBooking)).buttons = ["Confirm Reschedule"] ∧
    (parseResponse "proxe helps teams" "tell me more" 0 true none).buttons = ["Learn More"] :=
  ⟨by decide,
   C5_button_policy_determinism.1 "See you then!" 4 false (some contextWithBooking) (by decide),
   C5_button_policy_determinism.2 "proxe helps teams" "tell me more" none (by decide) (by decide)
     (by decide) (by decide) (by decide) (by decide) (by decide) (by decide) (by decide) (by decide)
     (by decide) (by decide) (by decide)⟩

theorem getOrCreateLead_preserves_sessions_messages (phone : JsInput) (brand : String)
    (leadData : LeadData) (st : Store) :
    (getOrCreateLead phone brand leadData st).2.whatsapp_sessions = st.whatsapp_sessions ∧
    (getOrCreateLead phone brand leadData st).2.messages = st.messages := by
  simp only [getOrCreateLead]
  by_cases h : normalizePhoneNumber phone = ""
  · simp [h]
  · cases hf : findLead st (normalizePhoneNumber phone) brand <;> simp [h, hf]

/-- C3 counterexample: `buildCustomerContext` is not read-only — on a
fresh store, building the context for a new phone inserts a Lead row
(via its internal `getOrCreateLead` call), so the Lead state changes. -/
theorem C3_counterexample :
    (buildCustomerContext (JsInput.jsStr "919876543210") "proxe" emptyStore).2.all_leads.length = 1 ∧
    emptyStore.all_leads.length = 0 ∧
    (buildCustomerContext (JsInput.jsStr "919876543210") "proxe" emptyStore).2 ≠ emptyStore := by
  refine ⟨?_, rfl, ?_⟩ <;> decide

/-- C3 (amended): `buildCustomerContext` mutates the store only through
its initial `getOrCreateLead` resolve step (which touches or inserts a
Lead row); everything after that step is a read: the resulting store is
exactly the post-resolve store, and Session and Message state are
unchanged from before the call. -/
theorem C3_build_mutates_only_via_resolve (sessionId : JsInput) (brand : String) (st : Store) :
    (buildCustomerContext sessionId brand st).2 =
      (getOrCreateLead sessionId brand defaultLeadData st).2 ∧
    (buildCustomerContext sessionId brand st).2.whatsapp_sessions = st.whatsapp_sessions ∧
    (buildCustomerContext sessionId brand st).2.messages = st.messages := by
  have hpre := getOrCreateLead_preserves_sessions_messages sessionId brand defaultLeadData st
  have h1 : (buildCustomerContext sessionId brand st).2 =
      (getOrCreateLead sessionId brand defaultLeadData st).2 := by
    rcases hg : getOrCreateLead sessionId brand defaultLeadData st with ⟨r, st1⟩
    cases r <;> simp [buildCustomerContext, hg]
  refine ⟨h1, ?_, ?_⟩ <;> rw [h1]
  · exact hpre.1
  · exact hpre.2

theorem determinePhase_eq_specClassify (messages : List Message) :
    determinePhase messages = specClassify messages.length := by
  unfold determinePhase specClassify
  by_cases h0 : messages.length = 0
  · simp [h0]
  · by_cases h3 : messages.length < 3 <;> by_cases h8 : messages.length < 8 <;>
      simp [h0, h3, h8]

/-- C4 counterexample: with a session reporting `message_count = 8` and
no fetched messages, the built phase is `discovery` (the code
classifies `messages.length`, ignoring `session.messageCount`), while
the claim's `classify(session.messageCount ?? length)` demands
`closing`. -/
theorem C4_counterexample :
    ((buildCustomerContext (JsInput.jsStr "919876543210") "proxe" storeC4).1.toOption.map
      (fun ctx => ctx.conversationPhase)) = some "discovery" ∧
    ((sessionQuery storeC4 "919876543210" "proxe").bind (fun s => s.message_count)) = some 8 ∧
    specClassify 8 = "closing" ∧
    (some "discovery" : Option String) ≠ some "closing" := by
  refine ⟨?_, by decide, by decide, by decide⟩
  decide

/-- C4 (amended): the built Context's phase is
`classify(currentChannelMessages.length)` — the length of the fetched
(≤ 20) current-channel message list — with the claimed thresholds
(`< 3` discovery, `< 8` evaluation, else closing); the
`session.messageCount ??` part of the claim is not what the code does. -/
theorem C4_phase_classifies_fetched_message_count (sessionId : JsInput) (brand : String)
    (st : Store) :
    ((buildCustomerContext sessionId brand st).1.toOption.map
      (fun ctx => ctx.conversationPhase)) =
    ((buildCustomerContext sessionId brand st).1.toOption.map
      (fun ctx =>
        specClassify (leadMessagesQuery (buildCustomerContext sessionId brand st).2 ctx.leadId).length)) := by
  rcases hg : getOrCreateLead sessionId brand defaultLeadData st with ⟨r, st1⟩
  cases r with
  | error e => simp [buildCustomerContext, hg, Except.toOption]
  | ok lead =>
    simp [buildCustomerContext, hg, assembleContext, Except.toOption,
      determinePhase_eq_specClassify]

theorem take_prefix_mono {α : Type} {P L : List α} (h : P <+: L) (n : Nat) :
    P.take n <+: L.take n := by
  obtain ⟨t, rfl⟩ := h
  rw [List.take_append_eq_append_take]
  exact List.prefix_append _ _

theorem scanKeywords_extends_acc (content : String) :
    ∀ (kws acc : List String), acc <+: scanKeywords content acc kws := by
  intro kws
  induction kws with
  | nil => intro acc; exact List.prefix_rfl
  | cons keyword rest ih =>
    intro acc
    simp only [scanKeywords]
    by_cases hik : jsIncludes content keyword = true
    · rw [if_pos hik]
      by_cases hctx : extractContextWindow content keyword ≠ "" ∧
          extractContextWindow content keyword ∉ acc
      · rw [if_pos hctx]
        exact (List.prefix_append acc [extractContextWindow content keyword]).trans
          (ih (acc ++ [extractContextWindow content keyword]))
      · rw [if_neg hctx]
        exact ih acc
    · rw [if_neg hik]
      exact ih acc

theorem scanMessages_extends_acc :
    ∀ (messages : List Message) (acc : List String), acc <+: scanMessages acc messages := by
  intro messages
  induction messages with
  | nil => intro acc; exact List.prefix_rfl
  | cons msg rest ih =>
    intro acc
    exact (scanKeywords_extends_acc (jsToLower msg.content) interestKeywords acc).trans
      (ih (extractInterestsStep acc (jsToLower msg.content)))

theorem scanMessages_append :
    ∀ (l1 l2 : List Message) (acc : List String),
      scanMessages acc (l1 ++ l2) = scanMessages (scanMessages acc l1) l2 := by
  intro l1
  induction l1 with
  | nil => intro l2 acc; rfl
  | cons msg rest ih =>
    intro l2 acc
    simp only [List.cons_append, scanMessages]
    exact ih l2 (extractInterestsStep acc (jsToLower msg.content))

theorem scanKeywords_mem (content : String) :
    ∀ (kws acc : List String), ∀ s ∈ scanKeywords content acc kws,
      s ∈ acc ∨ ∃ keyword ∈ kws, jsIncludes content keyword = true ∧
        s = extractContextWindow content keyword := by
  intro kws
  induction kws with
  | nil => intro acc s hs; exact Or.inl hs
  | cons keyword rest ih =>
    intro acc s hs
    simp only [scanKeywords] at hs
    by_cases hik : jsIncludes content keyword = true
    · rw [if_pos hik] at hs
      by_cases hctx : extractContextWindow content keyword ≠ "" ∧
          extractContextWindow content keyword ∉ acc
      · rw [if_pos hctx] at hs
        rcases ih _ s hs with h | ⟨kw, hkw, h1, h2⟩
        · rcases List.mem_append.mp h with h | h
          · exact Or.inl h
          · refine Or.inr ⟨keyword, List.mem_cons_self _ _, hik, ?_⟩
            simpa using h
        · exact Or.inr ⟨kw, List.mem_cons_of_mem _ hkw, h1, h2⟩
      · rw [if_neg hctx] at hs
        rcases ih _ s hs with h | ⟨kw, hkw, h1, h2⟩
        · exact Or.inl h
        · exact Or.inr ⟨kw, List.mem_cons_of_mem _ hkw, h1, h2⟩
    · rw [if_neg hik] at hs
      rcases ih _ s hs with h | ⟨kw, hkw, h1, h2⟩
      · exact Or.inl h
      · exact Or.inr ⟨kw, List.mem_cons_of_mem _ hkw, h1, h2⟩

theorem scanKeywords_nodup (content : String) :
    ∀ (kws acc : List String), acc.Nodup → (scanKeywords content acc kws).Nodup := by
  intro kws
  induction kws with
  | nil => intro acc h; exact h
  | cons keyword rest ih =>
    intro acc h
    simp only [scanKeywords]
    by_cases hik : jsIncludes content keyword = true
    · rw [if_pos hik]
      by_cases hctx : extractContextWindow content keyword ≠ "" ∧
          extractContextWindow content keyword ∉ acc
      · rw [if_pos hctx]
        refine ih _ ?_
        rw [List.nodup_append]
        exact ⟨h, List.nodup_singleton _, List.disjoint_singleton.mpr hctx.2⟩
      · rw [if_neg hctx]
        exact ih _ h
    · rw [if_neg hik]
      exact ih _ h

theorem scanMessages_mem :
    ∀ (messages : List Message) (acc : List String), ∀ s ∈ scanMessages acc messages,
      s ∈ acc ∨ ∃ m ∈ messages, ∃ keyword ∈ interestKeywords,
        jsIncludes (jsToLower m.content) keyword = true ∧
        s = extractContextWindow (jsToLower m.content) keyword := by
  intro messages
  induction messages with
  | nil => intro acc s hs; exact Or.inl hs
  | cons msg rest ih =>
    intro acc s hs
    simp only [scanMessages] at hs
    rcases ih _ s hs with h | ⟨m, hm, keyword, hkw, h1, h2⟩
    · rcases scanKeywords_mem (jsToLower msg.content) interestKeywords acc s h with
        h | ⟨keyword, hkw, h1, h2⟩
      · exact Or.inl h
      · exact Or.inr ⟨msg, List.mem_cons_self _ _, keyword, hkw, h1, h2⟩
    · exact Or.inr ⟨m, List.mem_cons_of_mem _ hm, keyword, hkw, h1, h2⟩

theorem scanMessages_nodup :
    ∀ (messages : List Message) (acc : List String), acc.Nodup →
      (scanMessages acc messages).Nodup := by
  intro messages
  induction messages with
  | nil => intro acc h; exact h
  | cons msg rest ih =>
    intro acc h
    exact ih _ (scanKeywords_nodup (jsToLower msg.content) interestKeywords acc h)

/-- C6 counterexample: `extractInterests` receives the fetched messages
newest-first (the caller does not reverse them), so the emitted windows
start with the most recent message — the opposite of "earliest message
first".  Here `created_at 2` (budget) precedes `created_at 1`
(location) in the output. -/
theorem C6_counterexample :
    ((buildCustomerContext (JsInput.jsStr "919876543210") "proxe" storeC6).1.toOption.map
      (fun ctx => ctx.previousInterests)) =
        some ["my budget is flexible", "location in pune"] ∧
    extractInterests [messageBudget, messageLocation] =
      ["my budget is flexible", "location in pune"] ∧
    messageBudget.created_at > messageLocation.created_at ∧
    (["my budget is flexible", "location in pune"] : List String) ≠
      ["location in pune", "my budget is flexible"] := by
  refine ⟨?_, by decide, by decide, by decide⟩
  decide

/-- C6 (amended): `extractInterests` returns at most 5 strings, without
duplicates, each being the trimmed ±20-character window around the
first occurrence of a matched keyword in some input message's
lower-cased content; windows are emitted in insertion order over the
input list (the output on any initial segment of the input is a prefix
of the full output), and the caller passes the fetched messages
newest-first without reversing them, so the most recent message's
interests come first. -/
theorem C6_extract_bounded_dedup_windows (messages : List Message) :
    (extractInterests messages).length ≤ 5 ∧
    (extractInterests messages).Nodup ∧
    (∀ s ∈ extractInterests messages, ∃ m ∈ messages, ∃ keyword ∈ interestKeywords,
      jsIncludes (jsToLower m.content) keyword = true ∧
      s = extractContextWindow (jsToLower m.content) keyword) ∧
    (∀ n : Nat, extractInterests (messages.take n) <+: extractInterests messages) := by
  refine ⟨?_, ?_, ?_, ?_⟩
  · rw [extractInterests, List.length_take]
    exact min_le_left _ _
  · exact ((List.take_sublist _ _).nodup
      (scanMessages_nodup messages [] List.nodup_nil))
  · intro s hs
    have hs2 := List.mem_of_mem_take hs
    rcases scanMessages_mem messages [] s hs2 with h | h
    · exact absurd h (List.not_mem_nil s)
    · exact h
  · intro n
    have hpre : scanMessages [] (messages.take n) <+: scanMessages [] messages := by
      conv_rhs => rw [← List.take_append_drop n messages]
      rw [scanMessages_append]
      exact scanMessages_extends_acc (messages.drop n) (scanMessages [] (messages.take n))
    exact take_prefix_mono hpre 5

theorem C6_witness :
    (extractInterests [messageBudget, messageLocation]).length ≤ 5 ∧
    "my budget is flexible" ∈ extractInterests [messageBudget, messageLocation] ∧
    (∃ m ∈ [messageBudget, messageLocation], ∃ keyword ∈ interestKeywords,
      jsIncludes (jsToLower m.content) keyword = true ∧
      "my budget is flexible" = extractContextWindow (jsToLower m.content) keyword) ∧
    extractInterests ([messageBudget, messageLocation].take 1) <+:
      extractInterests [messageBudget, messageLocation] ∧
    extractInterests ([messageBudget, messageLocation].take 1) = ["my budget is flexible"] :=
  ⟨(C6_extract_bounded_dedup_windows [messageBudget, messageLocation]).1,
   by decide,
   (C6_extract_bounded_dedup_windows [messageBudget, messageLocation]).2.2.1
     "my budget is flexible" (by decide),
   (C6_extract_bounded_dedup_windows [messageBudget, messageLocation]).2.2.2 1,
   by decide⟩

theorem indexOf_append_cons_self_of_not_mem (xs ys : List String) (v : String) (h : v ∉ xs) :
    (xs ++ v :: ys).indexOf v = xs.length := by
  rw [List.indexOf_append_of_not_mem h, List.indexOf_cons_self]
  exact Nat.add_zero _

theorem indexOf_append_cons_self_of_mem (xs ys : List String) (v : String) (h : v ∈ xs) :
    (xs ++ v :: ys).indexOf v < xs.length := by
  rw [List.indexOf_append_of_mem h]
  exact List.indexOf_lt_length.mpr h

theorem jsTrim_empty : jsTrim "" = "" := rfl

theorem jsUniqueTruthy_eq_dedup_general :
    ∀ (rest xs seen : List String), (∀ a : String, a ∈ seen ↔ a ∈ xs) →
      ((List.enumFrom xs.length rest).filter
        (fun p => (xs ++ rest).indexOf p.2 == p.1 && !(p.2 == "") && !(jsTrim p.2 == ""))).map
          Prod.snd
      = dedupNonblankAux seen rest := by
  intro rest
  induction rest with
  | nil => intro xs seen hseen; rfl
  | cons v rest2 ih =>
    intro xs seen hseen
    have hxv : xs ++ v :: rest2 = (xs ++ [v]) ++ rest2 := by
      rw [List.append_assoc]
      rfl
    have hlen : (xs ++ [v]).length = xs.length + 1 := by
      rw [List.length_append]
      rfl
    rw [List.enumFrom_cons, List.filter_cons]
    by_cases hmem : v ∈ xs
    · have hidx : (xs ++ v :: rest2).indexOf v < xs.length :=
        indexOf_append_cons_self_of_mem xs rest2 v hmem
      have hcond : ((xs ++ v :: rest2).indexOf v == xs.length && !(v == "") &&
          !(jsTrim v == "")) = false := by
        have : ((xs ++ v :: rest2).indexOf v == xs.length) = false := by
          simp only [beq_eq_false_iff_ne, ne_eq]
          omega
        simp [this]
      rw [hcond, if_neg (by decide : ¬(false = true))]
      have hrec := ih (xs ++ [v]) seen
        (fun a => by
          rw [hseen a, List.mem_append, List.mem_singleton]
          constructor
          · exact fun h => Or.inl h
          · rintro (h | h)
            · exact h
            · rw [h]; exact hmem)
      rw [hxv, ← hlen]
      rw [hrec]
      simp only [dedupNonblankAux]
      rw [if_pos ((hseen v).mpr hmem)]
    · have hidx : (xs ++ v :: rest2).indexOf v = xs.length :=
        indexOf_append_cons_self_of_not_mem xs rest2 v hmem
      have hrec := ih (xs ++ [v]) (v :: seen)
        (fun a => by
          rw [List.mem_cons, hseen a, List.mem_append, List.mem_singleton]
          constructor
          · rintro (h | h)
            · exact Or.inr h
            · exact Or.inl h
          · rintro (h | h)
            · exact Or.inr h
            · exact Or.inl h)
      by_cases htrim : jsTrim v = ""
      · have hcond : ((xs ++ v :: rest2).indexOf v == xs.length && !(v == "") &&
            !(jsTrim v == "")) = false := by
          simp [htrim]
        rw [hcond, if_neg (by decide : ¬(false = true))]
        rw [hxv, ← hlen, hrec]
        simp only [dedupNonblankAux]
        rw [if_neg (fun h => hmem ((hseen v).mp h)), if_pos htrim]
      · have hne : v ≠ "" := by
          intro h
          rw [h] at htrim
          exact htrim jsTrim_empty
        have hcond : ((xs ++ v :: rest2).indexOf v == xs.length && !(v == "") &&
            !(jsTrim v == "")) = true := by
          simp [hidx, hne, htrim]
        rw [hcond, if_pos (rfl : true = true)]
        rw [List.map_cons]
        rw [hxv, ← hlen, hrec]
        simp only [dedupNonblankAux]
        rw [if_neg (fun h => hmem ((hseen v).mp h)), if_neg htrim]

theorem jsUniqueTruthy_eq_dedup (l : List String) :
    jsUniqueTruthy l = dedupNonblankAux [] l := by
  have h := jsUniqueTruthy_eq_dedup_general l [] [] (fun a => Iff.rfl)
  simpa [jsUniqueTruthy, List.enum] using h

/-- C7 counterexample: the merged interest list is not exactly
"web inputs ++ WhatsApp interests, deduplicated, capped at 10" — the
code additionally drops empty/whitespace-only strings.  With web user
inputs `["", "pune flats"]` and no messages, the built list is
`["pune flats"]`, while first-occurrence dedup + cap of the
concatenation keeps the empty string. -/
theorem C7_counterexample :
    ((buildCustomerContext (JsInput.jsStr "919876543210") "proxe" storeC7).1.toOption.map
      (fun ctx => ctx.previousInterests)) = some ["pune flats"] ∧
    ((buildCustomerContext (JsInput.jsStr "919876543210") "proxe" storeC7).1.toOption.map
      (fun ctx =>
        (specDedupFirst [] (ctx.webUserInputs ++
          extractInterests (leadMessagesQuery
            (buildCustomerContext (JsInput.jsStr "919876543210") "proxe" storeC7).2
            ctx.leadId))).take 10)) = some ["", "pune flats"] ∧
    (some ["pune flats"] : Option (List String)) ≠ some ["", "pune flats"] := by
  refine ⟨?_, ?_, by decide⟩ <;> decide

/-- C7 (amended): in every built Context, web data precedes
current-channel data: the merged interest list is the web user inputs
followed by the WhatsApp-extracted interests, with empty and
whitespace-only strings dropped, deduplicated by exact string equality
preserving first occurrence, capped at 10; and when a web summary X
exists, the merged summary is `"Web: X\nWhatsApp: Y"` when the
WhatsApp summary Y is non-trivial, and `"Web: X"` alone when Y is the
trivial new-customer summary — never the reverse order. -/
theorem C7_merge_precedence_web_first (lead : Lead) (fullContext : FullContext)
    (session : Option Session) (messages : List Message) :
    (assembleContext lead fullContext session messages).previousInterests =
      (dedupNonblankAux [] (fullContext.userInputs ++ extractInterests messages)).take 10 ∧
    (webSummaryOf fullContext ≠ "" →
      whatsappSummaryOf session messages ≠ "New customer, no previous conversation." →
      (assembleContext lead fullContext session messages).conversationSummary =
        "Web: " ++ webSummaryOf fullContext ++ "\nWhatsApp: " ++
          whatsappSummaryOf session messages) ∧
    (webSummaryOf fullContext ≠ "" →
      whatsappSummaryOf session messages = "New customer, no previous conversation." →
      (assembleContext lead fullContext session messages).conversationSummary =
        "Web: " ++ webSummaryOf fullContext) := by
  refine ⟨?_, ?_, ?_⟩
  · show allInterestsOf fullContext (extractInterests messages) = _
    rw [allInterestsOf, jsUniqueTruthy_eq_dedup]
  · intro hweb hwa
    show combinedSummaryOf fullContext session messages = _
    rw [combinedSummaryOf]
    simp only [if_neg hweb, if_pos hwa]
  · intro hweb hwa
    show combinedSummaryOf fullContext session messages = _
    rw [combinedSummaryOf]
    simp only [if_neg hweb]
    rw [if_neg (by simp [hwa])]

theorem C7_witness :
    webSummaryOf fullContextW ≠ "" ∧
    whatsappSummaryOf none [messageW] ≠ "New customer, no previous conversation." ∧
    (assembleContext leadA fullContextW none [messageW]).conversationSummary =
      "Web: saw pricing page\nWhatsApp: customer: hello" ∧
    (assembleContext leadA fullContextW none [messageW]).previousInterests =
      (dedupNonblankAux [] (fullContextW.userInputs ++ extractInterests [messageW])).take 10 :=
  ⟨by decide, by decide,
   by
    have h := (C7_merge_precedence_web_first leadA fullContextW none [messageW]).2.1
      (by decide) (by decide)
    rw [h]
    decide,
   (C7_merge_precedence_web_first leadA fullContextW none [messageW]).1⟩

theorem getOrCreateLead_found (phone : JsInput) (brand : String) (leadData : LeadData)
    (st : Store) (ex : Lead)
    (hne : normalizePhoneNumber phone ≠ "")
    (hf : findLead st (normalizePhoneNumber phone) brand = some ex) :
    getOrCreateLead phone brand leadData st =
      (Except.ok (touchedLead ex st.now),
       { st with all_leads := st.all_leads.map (fun l =>
           if l.id == ex.id then touchedLead ex st.now else l) }) := by
  simp only [getOrCreateLead]
  rw [if_neg hne, hf]

theorem getOrCreateLead_notfound (phone : JsInput) (brand : String) (leadData : LeadData)
    (st : Store)
    (hne : normalizePhoneNumber phone ≠ "")
    (hf : findLead st (normalizePhoneNumber phone) brand = none) :
    getOrCreateLead phone brand leadData st =
      (Except.ok (newLeadOf phone brand leadData st),
       { st with all_leads := st.all_leads ++ [newLeadOf phone brand leadData st]
                 nextLeadId := st.nextLeadId + 1 }) := by
  simp only [getOrCreateLead]
  rw [if_neg hne, hf]

theorem getOrCreateLead_ok_brand (phone : JsInput) (brand : String) (leadData : LeadData)
    (st : Store) (l : Lead) (st' : Store)
    (h : getOrCreateLead phone brand leadData st = (Except.ok l, st')) : l.brand = brand := by
  by_cases hne : normalizePhoneNumber phone = ""
  · simp [getOrCreateLead, hne] at h
  · cases hf : findLead st (normalizePhoneNumber phone) brand with
    | some ex =>
      rw [getOrCreateLead_found phone brand leadData st ex hne hf] at h
      have hPex := List.find?_some hf
      simp only [Bool.and_eq_true, beq_iff_eq] at hPex
      have hl : l = touchedLead ex st.now := by
        have := congrArg Prod.fst h
        simpa using this.symm
      rw [hl]
      exact hPex.2
    | none =>
      rw [getOrCreateLead_notfound phone brand leadData st hne hf] at h
      have hl : l = newLeadOf phone brand leadData st := by
        have := congrArg Prod.fst h
        simpa using this.symm
      rw [hl]
      rfl

theorem find_update_eq (leads : List Lead) (P : Lead → Bool) (ex upd : Lead)
    (hex : ex ∈ leads) (hPupd : P upd = true)
    (huniq : ∀ a ∈ leads, P a = true → a = ex)
    (hid : ∀ a ∈ leads, a.id = ex.id → a = ex) :
    (leads.map (fun l => if l.id == ex.id then upd else l)).find? P = some upd := by
  induction leads with
  | nil => exact absurd hex (List.not_mem_nil ex)
  | cons h t ih =>
    rw [List.map_cons]
    by_cases hh : h.id = ex.id
    · rw [if_pos (beq_iff_eq.mpr hh)]
      exact List.find?_cons_of_pos _ hPupd
    · rw [if_neg (by simpa using hh)]
      have hPh : P h = false := by
        by_contra hc
        have : h = ex := huniq h (List.mem_cons_self h t) (Bool.of_not_eq_false hc)
        exact hh (congrArg Lead.id this)
      rw [List.find?_cons_of_neg _ (by simp [hPh])]
      have hex2 : ex ∈ t := by
        rcases List.mem_cons.mp hex with h1 | h1
        · exact absurd (congrArg Lead.id h1.symm) hh
        · exact h1
      exact ih hex2 (fun a ha hPa => huniq a (List.mem_cons_of_mem h ha) hPa)
        (fun a ha heq => hid a (List.mem_cons_of_mem h ha) heq)

theorem find?_append_none {α : Type} (p : α → Bool) (l1 l2 : List α)
    (h : l1.find? p = none) : (l1 ++ l2).find? p = l2.find? p := by
  rw [List.find?_append, h, Option.none_or]

/-- C2: two `getOrCreateLead` calls whose raw phones normalize to the
same non-empty key, with the same brand, resolve to the same Lead id:
the second call succeeds, updates `last_touchpoint`/`last_interaction_at`
on the very same row (the store's lead list is a pointwise update of
that row, with unchanged length — no duplicate Lead), while resolving
the same phone under a different brand yields a different Lead. -/
theorem C2_identity_stability (p1 p2 : JsInput) (brand : String) (d1 d2 : LeadData) (st : Store)
    (hKU : LeadKeyBrandUnique st.all_leads) (hIU : LeadIdUnique st.all_leads)
    (hkey : normalizePhoneNumber p1 = normalizePhoneNumber p2)
    (hne : normalizePhoneNumber p1 ≠ "") :
    ∃ l1 st1 l2 st2,
      getOrCreateLead p1 brand d1 st = (Except.ok l1, st1) ∧
      getOrCreateLead p2 brand d2 st1 = (Except.ok l2, st2) ∧
      l2.id = l1.id ∧
      st2.all_leads.length = st1.all_leads.length ∧
      l2.last_touchpoint = "whatsapp" ∧
      l2.last_interaction_at = st1.now ∧
      st2.all_leads = st1.all_leads.map (fun l => if l.id = l1.id then l2 else l) ∧
      (∀ (b2 : String) (d3 : LeadData) (l3 : Lead) (st3 : Store),
        b2 ≠ brand → getOrCreateLead p1 b2 d3 st = (Except.ok l3, st3) → l3 ≠ l1) := by
  have hne2 : normalizePhoneNumber p2 ≠ "" := fun h => hne (hkey.trans h)
  cases hf : findLead st (normalizePhoneNumber p1) brand with
  | some ex =>
    have h1 := getOrCreateLead_found p1 brand d1 st ex hne hf
    have hf2 : findLead st (normalizePhoneNumber p1) brand =
        st.all_leads.find? (fun l =>
          l.customer_phone_normalized == normalizePhoneNumber p1 && l.brand == brand) := rfl
    have hfind : st.all_leads.find? (fun l =>
        l.customer_phone_normalized == normalizePhoneNumber p1 && l.brand == brand) = some ex :=
      hf2 ▸ hf
    have hPex := List.find?_some hfind
    have hexmem := List.mem_of_find?_eq_some hfind
    have hPex2 : ex.customer_phone_normalized = normalizePhoneNumber p1 ∧ ex.brand = brand := by
      simpa [Bool.and_eq_true, beq_iff_eq] using hPex
    set l1 := touchedLead ex st.now with hl1
    set stA : Store :=
      { st with all_leads := st.all_leads.map (fun l =>
          if l.id == ex.id then touchedLead ex st.now else l) } with hstA
    have hPl1 : (l1.customer_phone_normalized == normalizePhoneNumber p1 &&
        l1.brand == brand) = true := by
      simp [hl1, touchedLead, hPex2.1, hPex2.2]
    have hfindA : findLead stA (normalizePhoneNumber p2) brand = some l1 := by
      show stA.all_leads.find? _ = some l1
      rw [← hkey, hstA]
      exact find_update_eq st.all_leads _ ex l1 hexmem hPl1
        (fun a ha hPa => by
          have := hKU a ha ex hexmem
          simp only [Bool.and_eq_true, beq_iff_eq] at hPa
          exact this (hPa.1.trans hPex2.1.symm) (hPa.2.trans hPex2.2.symm))
        (fun a ha heq => hIU a ha ex hexmem heq)
    have h2 := getOrCreateLead_found p2 brand d2 stA l1 hne2 hfindA
    refine ⟨l1, stA, touchedLead l1 stA.now,
      { stA with all_leads := stA.all_leads.map (fun l =>
          if l.id == l1.id then touchedLead l1 stA.now else l) },
      h1, h2, rfl, ?_, rfl, rfl, ?_, ?_⟩
    · exact List.length_map _ _
    · show stA.all_leads.map _ = stA.all_leads.map _
      refine List.map_congr_left (fun a _ => ?_)
      by_cases h : a.id = l1.id
      · rw [if_pos (beq_iff_eq.mpr h), if_pos h]
      · rw [if_neg (by simpa using h), if_neg h]
    · intro b2 d3 l3 st3 hb2 hg3
      have hb3 := getOrCreateLead_ok_brand p1 b2 d3 st l3 st3 hg3
      intro heq
      apply hb2
      rw [← hb3, heq, hl1]
      show ex.brand = brand
      exact hPex2.2
  | none =>
    have h1 := getOrCreateLead_notfound p1 brand d1 st hne hf
    set l1 := newLeadOf p1 brand d1 st with hl1
    set stA : Store :=
      { st with all_leads := st.all_leads ++ [newLeadOf p1 brand d1 st]
                nextLeadId := st.nextLeadId + 1 } with hstA
    have hfindnone : st.all_leads.find? (fun l =>
        l.customer_phone_normalized == normalizePhoneNumber p1 && l.brand == brand) = none := hf
    have hPl1 : ((newLeadOf p1 brand d1 st).customer_phone_normalized ==
        normalizePhoneNumber p1 && (newLeadOf p1 brand d1 st).brand == brand) = true := by
      simp [newLeadOf]
    have hfindA : findLead stA (normalizePhoneNumber p2) brand = some l1 := by
      show stA.all_leads.find? _ = some l1
      rw [← hkey, hstA]
      show (st.all_leads ++ [newLeadOf p1 brand d1 st]).find? _ = _
      rw [find?_append_none _ _ _ hfindnone]
      exact List.find?_cons_of_pos _ hPl1
    have h2 := getOrCreateLead_found p2 brand d2 stA l1 hne2 hfindA
    refine ⟨l1, stA, touchedLead l1 stA.now,
      { stA with all_leads := stA.all_leads.map (fun l =>
          if l.id == l1.id then touchedLead l1 stA.now else l) },
      h1, h2, rfl, ?_, rfl, rfl, ?_, ?_⟩
    · exact List.length_map _ _
    · show stA.all_leads.map _ = stA.all_leads.map _
      refine List.map_congr_left (fun a _ => ?_)
      by_cases h : a.id = l1.id
      · rw [if_pos (beq_iff_eq.mpr h), if_pos h]
      · rw [if_neg (by simpa using h), if_neg h]
    · intro b2 d3 l3 st3 hb2 hg3
      have hb3 := getOrCreateLead_ok_brand p1 b2 d3 st l3 st3 hg3
      intro heq
      apply hb2
      rw [← hb3, heq, hl1]
      rfl

theorem C2_witness :
    LeadKeyBrandUnique emptyStore.all_leads ∧ LeadIdUnique emptyStore.all_leads ∧
    normalizePhoneNumber (JsInput.jsStr "+91 9876543210") =
      normalizePhoneNumber (JsInput.jsStr "919876543210") ∧
    normalizePhoneNumber (JsInput.jsStr "+91 9876543210") ≠ "" ∧
    (∃ l1 st1 l2 st2,
      getOrCreateLead (JsInput.jsStr "+91 9876543210") "proxe" defaultLeadData emptyStore =
        (Except.ok l1, st1) ∧
      getOrCreateLead (JsInput.jsStr "919876543210") "proxe" defaultLeadData st1 =
        (Except.ok l2, st2) ∧
      l2.id = l1.id ∧
      st2.all_leads.length = st1.all_leads.length ∧
      l2.last_touchpoint = "whatsapp" ∧
      l2.last_interaction_at = st1.now ∧
      st2.all_leads = st1.all_leads.map (fun l => if l.id = l1.id then l2 else l) ∧
      (∀ (b2 : String) (d3 : LeadData) (l3 : Lead) (st3 : Store),
        b2 ≠ "proxe" →
        getOrCreateLead (JsInput.jsStr "+91 9876543210") b2 d3 emptyStore =
          (Except.ok l3, st3) → l3 ≠ l1)) :=
  ⟨fun a ha => absurd ha (List.not_mem_nil a),
   fun a ha => absurd ha (List.not_mem_nil a),
   by decide, by decide,
   C2_identity_stability (JsInput.jsStr "+91 9876543210") (JsInput.jsStr "919876543210")
     "proxe" defaultLeadData defaultLeadData emptyStore
     (fun a ha => absurd ha (List.not_mem_nil a))
     (fun a ha => absurd ha (List.not_mem_nil a))
     (by decide) (by decide)⟩

end Proxe
